import Mathlib

/- Verification of the response-normalization core of sentiment_llm.py.

   Python values that can arise from json parsing are modelled by the
   inductive type PyVal.  Python floats are modelled by PyFloat: either an
   exact decimal number num / 10 ^ scale (every finite float handled by
   this program is a decimal literal or a parsed decimal string; IEEE
   binary rounding artifacts are not modelled) or one of the special
   values nan, +inf, -inf, which float() and json.loads do accept.
   Fallible Python code (raise / except) is modelled with Except / Option.
   All definitions are translated from the source file. -/

set_option linter.unusedVariables false

/-- A finite Python float value, exactly: num / 10 ^ scale. -/
structure PyNum where
  num : Int
  scale : Nat
deriving Repr, DecidableEq

/-- A Python float: a finite decimal, nan, or a signed infinity
    (inf true is negative infinity). -/
inductive PyFloat where
  | fin : PyNum → PyFloat
  | nan : PyFloat
  | inf : Bool → PyFloat
deriving Repr, DecidableEq

/-- A Python value as produced by json.loads (plus raw strings). -/
inductive PyVal where
  | none : PyVal
  | bool : Bool → PyVal
  | int : Int → PyVal
  | float : PyFloat → PyVal
  | str : String → PyVal
  | list : List PyVal → PyVal
  | dict : List (String × PyVal) → PyVal

abbrev PyDict := List (String × PyVal)

/-- Python exceptions that the analysed code can raise. -/
inductive PyErr where
  | valueError : String → PyErr
  | attributeError : String → PyErr

/-- The canonical four-field result dict returned by _coerce_result. -/
structure AnalysisResult where
  label : String
  confidence : PyFloat
  explanation : String
  evidence_phrases : List String

/-- Python truthiness (bool(v)). -/
def isTruthy : PyVal → Bool
  | .none => false
  | .bool b => b
  | .int n => !(n == 0)
  | .float (.fin p) => !(p.num == 0)
  | .float PyFloat.nan => true
  | .float (.inf _) => true
  | .str s => !(s == "")
  | .list l => !l.isEmpty
  | .dict d => !d.isEmpty

/-- dict.get(k): the bound value, or None when the key is absent. -/
def dictGet (d : PyDict) (k : String) : PyVal :=
  match d.find? (fun p => p.1 == k) with
  | some p => p.2
  | Option.none => PyVal.none

/-- Python `a or b` on values: a when truthy, otherwise b. -/
def pyOr (a b : PyVal) : PyVal := if isTruthy a then a else b

/-- Whitespace as recognised by str.strip() and the regex class backslash-s
    (ASCII part: space, tab, newline, carriage return, vertical tab, form feed). -/
def pyWs (c : Char) : Bool :=
  c == ' ' || c == '\t' || c == '\n' || c == '\r' || c == '\x0b' || c == '\x0c'

def trimChars (l : List Char) : List Char :=
  ((l.dropWhile pyWs).reverse.dropWhile pyWs).reverse

/-- str.strip(). -/
def pyStrip (s : String) : String := String.mk (trimChars s.data)

/-- str.lower() (ASCII). -/
def pyLower (s : String) : String := String.mk (s.data.map Char.toLower)

/-- sep.join(xs). -/
def sjoin (sep : String) : List String → String
  | [] => ""
  | [x] => x
  | x :: xs => x ++ sep ++ sjoin sep xs

def tenPow (k : Nat) : Nat := 10 ^ k

/-- Decimal digits of m left-padded with zeros to k digits. -/
def decPad (k : Nat) (m : Nat) : String :=
  let s := toString m
  String.mk (List.replicate (k - s.length) '0') ++ s

/-- Remove trailing decimal zeros: reach the minimal exponent representation. -/
def stripTens : Nat → Int → Nat → Int × Nat
  | 0, n, sc => (n, sc)
  | f + 1, n, sc =>
    if sc == 0 then (n, sc)
    else if n % 10 == 0 then stripTens f (n / 10) (sc - 1)
    else (n, sc)

/-- str(x) / repr(x) for a Python float: the shortest decimal form,
    e.g. "0.7" for 0.70 and "5.0" for an integral float. -/
def qDecRender (x : PyNum) : String :=
  let p := stripTens x.scale x.num x.scale
  let a : Nat := p.1.natAbs
  let base := toString (a / tenPow p.2) ++ "." ++
    (if p.2 == 0 then "0" else decPad p.2 (a % tenPow p.2))
  if p.1 < 0 then "-" ++ base else base

/-- str(x) / repr(x) for a full Python float, specials included. -/
def pyFloatRender : PyFloat → String
  | .fin p => qDecRender p
  | PyFloat.nan => "nan"
  | .inf false => "inf"
  | .inf true => "-inf"

/-- repr(v), fuel-bounded on nesting depth (string escaping simplified:
    the strings fed to it by this program contain no quotes). -/
def pyReprV : Nat → PyVal → String
  | _, .none => "None"
  | _, .bool true => "True"
  | _, .bool false => "False"
  | _, .int n => toString n
  | _, .float x => pyFloatRender x
  | _, .str s => "\x27" ++ s ++ "\x27"
  | 0, _ => ""
  | f + 1, .list xs => "[" ++ sjoin ", " (xs.map (pyReprV f)) ++ "]"
  | f + 1, .dict d =>
    "\x7b" ++ sjoin ", " (d.map (fun p => "\x27" ++ p.1 ++ "\x27: " ++ pyReprV f p.2)) ++ "\x7d"

/-- str(v). -/
def pyStr (v : PyVal) : String :=
  match v with
  | .str s => s
  | _ => pyReprV 1000 v

/- ---------- _normalize_label (sentiment_llm.py lines 102-118) ---------- -/

def posAliases : List String := ["positive", "pos", "p"]

def negAliases : List String := ["negative", "neg", "n"]

def neuAliases : List String := ["neutral", "neu", "ntrl", "neut"]

/-- Normalize label variants to exactly Positive | Negative | Neutral,
    or fail with a ValueError, as in _normalize_label. -/
def _normalize_label (label_raw : PyVal) : Except PyErr String :=
  match label_raw with
  | PyVal.none => .error (.valueError "Label missing from model output")
  | v =>
    let lab := pyLower (pyStrip (pyStr v))
    if posAliases.contains lab then .ok "Positive"
    else if negAliases.contains lab then .ok "Negative"
    else if neuAliases.contains lab then .ok "Neutral"
    else .error (.valueError ("Invalid label from model: \x27" ++ pyStr v ++ "\x27"))

/- ---------- _shorten_explanation (lines 62-78) ---------- -/

def sentPunct (c : Char) : Bool := c == '.' || c == '!' || c == '?'

/-- re.split on whitespace runs preceded by a sentence-ending mark,
    i.e. the pattern: lookbehind [.!?] then one-or-more whitespace.
    Fuel-driven; the fuel is instantiated with the input length. -/
def sentSplitAux : Nat → List Char → List Char → List String
  | 0, rest, acc => [String.mk (acc.reverse ++ rest)]
  | _, [], acc => [String.mk acc.reverse]
  | f + 1, c :: rest, acc =>
    if sentPunct c && (match rest with | d :: _ => pyWs d | [] => false) then
      String.mk (c :: acc).reverse :: sentSplitAux f (rest.dropWhile pyWs) []
    else
      sentSplitAux f rest (c :: acc)

def pySentSplit (s : String) : List String := sentSplitAux s.data.length s.data []

/-- s.rsplit(" ", 1)[0]: everything before the last space, or s itself
    when it has no space. -/
def rsplitHead (l : List Char) : List Char :=
  if l.contains ' ' then ((l.reverse.dropWhile (fun c => !(c == ' '))).drop 1).reverse
  else l

/-- The joined first max_sentences sentence segments (the local `short`
    before the final length check in _shorten_explanation). -/
def shortJoin (text : PyVal) (max_sentences : Nat) : String :=
  pyStrip (sjoin " " ((pySentSplit (pyStrip (pyStr text))).take max_sentences))

/-- _shorten_explanation: keep up to max_sentences sentences; if still
    longer than 240 characters, cut to 240, back up to the last space and
    append "...". Falsy input yields the empty string. -/
def _shorten_explanation (text : PyVal) (max_sentences : Nat) : String :=
  if !(isTruthy text) then ""
  else
    let short := shortJoin text max_sentences
    if 240 < short.data.length then String.mk (rsplitHead (short.data.take 240)) ++ "..."
    else short

/- ---------- _clean_text_preserve_json (lines 31-59) ---------- -/

def btick : Char := Char.ofNat 96

def lbrace : Char := Char.ofNat 123

def rbrace : Char := Char.ofNat 125

/-- The code-fence stripping step of _clean_text_preserve_json:
    strip() the text; when it starts with three backticks, lstrip all
    backticks, strip an optional case-insensitive json tag (the first
    four characters), and drop a trailing three-backtick fence if present,
    stripping whitespace after each step. -/
def fenceStrip (raw : String) : String :=
  let text := pyStrip raw
  if text.data.take 3 == List.replicate 3 btick then
    let t1 := pyStrip (String.mk (text.data.dropWhile (fun c => c == btick)))
    let t2 :=
      if pyLower (String.mk (t1.data.take 4)) == "json" then pyStrip (String.mk (t1.data.drop 4))
      else t1
    if t2.data.reverse.take 3 == List.replicate 3 btick then
      pyStrip (String.mk (t2.data.take (t2.data.length - 3)))
    else t2
  else text

/-- Keep the prefix of l up to and including its last closing brace. -/
def takeToLastRBrace (l : List Char) : List Char :=
  ((l.reverse).dropWhile (fun c => !(c == rbrace))).reverse

/-- Leftmost-starting greedy search for the regex open-brace .* close-brace
    (re.MULTILINE, dot matching everything): succeeds at the first opening
    brace that has some closing brace after it, and the greedy star then
    extends the match to the last closing brace of the text. -/
def jsonBlockSearch : List Char → Option (List Char)
  | [] => Option.none
  | c :: rest =>
    if c == lbrace && rest.contains rbrace then some (c :: takeToLastRBrace rest)
    else jsonBlockSearch rest

/-- Substring from the first opening brace to the last closing brace,
    phrased directly from the specification text. -/
def braceSpan (l : List Char) : List Char :=
  takeToLastRBrace (l.dropWhile (fun c => !(c == lbrace)))

/-- _clean_text_preserve_json: None yields ""; otherwise strip fences and
    return the regex match for the brace block when one exists, else the
    cleaned text itself. -/
def _clean_text_preserve_json : Option String → String
  | Option.none => ""
  | some raw =>
    let text := fenceStrip raw
    match jsonBlockSearch text.data with
    | some m => String.mk m
    | Option.none => text

/- ---------- json.loads (the strict parser used by _extract_json) ---------- -/

/-- Whitespace skipped by the json scanner (space, tab, newline, return). -/
def jsonWsChar (c : Char) : Bool := c == ' ' || c == '\t' || c == '\n' || c == '\r'

def jsonWsStrip (l : List Char) : List Char := l.dropWhile jsonWsChar

/-- Python dict insertion while parsing an object: a repeated key keeps its
    first position but takes the later value. -/
def dictUpdate (d : PyDict) (k : String) (v : PyVal) : PyDict :=
  if d.any (fun p => p.1 == k) then d.map (fun p => if p.1 == k then (k, v) else p)
  else d ++ [(k, v)]

def hexVal (c : Char) : Option Nat :=
  if c.toNat >= 48 && c.toNat <= 57 then some (c.toNat - 48)
  else if c.toNat >= 97 && c.toNat <= 102 then some (c.toNat - 87)
  else if c.toNat >= 65 && c.toNat <= 70 then some (c.toNat - 55)
  else Option.none

/-- Body of a json string after the opening quote, with escapes;
    bare control characters are rejected (strict mode). -/
def parseStrAux : List Char → List Char → Option (String × List Char)
  | [], _ => Option.none
  | c :: rest, acc =>
    if c == '"' then some (String.mk acc.reverse, rest)
    else if c == '\\' then
      match rest with
      | [] => Option.none
      | e :: rest2 =>
        if e == '"' then parseStrAux rest2 ('"' :: acc)
        else if e == '\\' then parseStrAux rest2 ('\\' :: acc)
        else if e == '/' then parseStrAux rest2 ('/' :: acc)
        else if e == 'b' then parseStrAux rest2 ('\x08' :: acc)
        else if e == 'f' then parseStrAux rest2 ('\x0c' :: acc)
        else if e == 'n' then parseStrAux rest2 ('\n' :: acc)
        else if e == 'r' then parseStrAux rest2 ('\r' :: acc)
        else if e == 't' then parseStrAux rest2 ('\t' :: acc)
        else if e == 'u' then
          match rest2 with
          | a :: b :: c2 :: d2 :: rest3 =>
            match hexVal a, hexVal b, hexVal c2, hexVal d2 with
            | some x1, some x2, some x3, some x4 =>
              parseStrAux rest3 (Char.ofNat (((x1 * 16 + x2) * 16 + x3) * 16 + x4) :: acc)
            | _, _, _, _ => Option.none
          | _ => Option.none
        else Option.none
    else if c.toNat < 32 then Option.none
    else parseStrAux rest (c :: acc)

def digitsToNat (l : List Char) : Nat := l.foldl (fun a c => a * 10 + (c.toNat - 48)) 0

/-- A json number token: int when it has no fraction and no exponent,
    float otherwise; leading zeros are rejected as in the json grammar. -/
def parseNum (l : List Char) : Option (PyVal × List Char) :=
  let neg := l.head? == some '-'
  let l1 := if neg then l.drop 1 else l
  let ds := l1.takeWhile Char.isDigit
  let r1 := l1.dropWhile Char.isDigit
  if ds.isEmpty then Option.none
  else if decide (1 < ds.length) && ds.head? == some '0' then Option.none
  else
    let hasFrac := r1.head? == some '.'
    let fs := if hasFrac then (r1.drop 1).takeWhile Char.isDigit else []
    let r2 := if hasFrac then (r1.drop 1).dropWhile Char.isDigit else r1
    if hasFrac && fs.isEmpty then Option.none
    else
      let hasExp := r2.head? == some 'e' || r2.head? == some 'E'
      let expNeg := hasExp && (r2.drop 1).head? == some '-'
      let r3 :=
        if hasExp then
          if (r2.drop 1).head? == some '-' || (r2.drop 1).head? == some '+' then r2.drop 2
          else r2.drop 1
        else r2
      let es := if hasExp then r3.takeWhile Char.isDigit else []
      let r4 := if hasExp then r3.dropWhile Char.isDigit else r2
      if hasExp && es.isEmpty then Option.none
      else
        let sgn : Int := if neg then -1 else 1
        if !hasFrac && !hasExp then some (PyVal.int (sgn * digitsToNat ds), r1)
        else
          let mant : Int := sgn * (digitsToNat ds * tenPow fs.length + digitsToNat fs)
          let e := digitsToNat es
          let x : PyNum :=
            if expNeg then ⟨mant, fs.length + e⟩ else ⟨mant * tenPow e, fs.length⟩
          some (PyVal.float (.fin x), r4)

/-- Parser modes: a value, array elements, after-element separator,
    object members, after-member separator. -/
inductive PMode where
  | value : PMode
  | elems : List PyVal → PMode
  | elemsSep : List PyVal → PMode
  | membs : PyDict → PMode
  | membsSep : PyDict → PMode

def litMatch (lit : List Char) (l : List Char) : Option (List Char) :=
  if l.take lit.length == lit then some (l.drop lit.length) else Option.none

/-- The recursive-descent json value parser, fuel-driven so that it is a
    structural recursion the kernel can evaluate.  The constants NaN,
    Infinity and -Infinity that Python accepts by default are recognised
    as the corresponding special float values. -/
def pRun : Nat → PMode → List Char → Option (PyVal × List Char)
  | 0, _, _ => Option.none
  | f + 1, .value, l =>
    match l with
    | [] => Option.none
    | c :: rest =>
      if c == lbrace then pRun f (.membs []) (jsonWsStrip rest)
      else if c == '[' then pRun f (.elems []) (jsonWsStrip rest)
      else if c == '"' then
        match parseStrAux rest [] with
        | some p => some (.str p.1, p.2)
        | Option.none => Option.none
      else if c == 't' then
        match litMatch ['r', 'u', 'e'] rest with
        | some r => some (.bool true, r)
        | Option.none => Option.none
      else if c == 'f' then
        match litMatch ['a', 'l', 's', 'e'] rest with
        | some r => some (.bool false, r)
        | Option.none => Option.none
      else if c == 'n' then
        match litMatch ['u', 'l', 'l'] rest with
        | some r => some (PyVal.none, r)
        | Option.none => Option.none
      else if c == 'N' then
        match litMatch ['a', 'N'] rest with
        | some r => some (.float PyFloat.nan, r)
        | Option.none => Option.none
      else if c == 'I' then
        match litMatch ['n', 'f', 'i', 'n', 'i', 't', 'y'] rest with
        | some r => some (.float (.inf false), r)
        | Option.none => Option.none
      else if c == '-' then
        match litMatch ['I', 'n', 'f', 'i', 'n', 'i', 't', 'y'] rest with
        | some r => some (.float (.inf true), r)
        | Option.none => parseNum l
      else parseNum l
  | f + 1, .elems acc, l =>
    match l with
    | [] => Option.none
    | c :: rest =>
      if c == ']' && acc.isEmpty then some (.list [], rest)
      else
        match pRun f .value l with
        | some p => pRun f (.elemsSep (acc ++ [p.1])) (jsonWsStrip p.2)
        | Option.none => Option.none
  | f + 1, .elemsSep acc, l =>
    match l with
    | [] => Option.none
    | c :: rest =>
      if c == ']' then some (.list acc, rest)
      else if c == ',' then pRun f (.elems acc) (jsonWsStrip rest)
      else Option.none
  | f + 1, .membs acc, l =>
    match l with
    | [] => Option.none
    | c :: rest =>
      if c == rbrace && acc.isEmpty then some (.dict [], rest)
      else if c == '"' then
        match parseStrAux rest [] with
        | some kp =>
          match jsonWsStrip kp.2 with
          | c2 :: r2 =>
            if c2 == ':' then
              match pRun f .value (jsonWsStrip r2) with
              | some vp => pRun f (.membsSep (dictUpdate acc kp.1 vp.1)) (jsonWsStrip vp.2)
              | Option.none => Option.none
            else Option.none
          | [] => Option.none
        | Option.none => Option.none
      else Option.none
  | f + 1, .membsSep acc, l =>
    match l with
    | [] => Option.none
    | c :: rest =>
      if c == rbrace then some (.dict acc, rest)
      else if c == ',' then pRun f (.membs acc) (jsonWsStrip rest)
      else Option.none

/-- json.loads: parse one value and require only whitespace after it
    ("Extra data" otherwise); failure is modelled as Option.none. -/
def jsonLoads (s : String) : Option PyVal :=
  match pRun (4 * s.data.length + 16) .value (jsonWsStrip s.data) with
  | some p => if (jsonWsStrip p.2).isEmpty then some p.1 else Option.none
  | Option.none => Option.none

/- ---------- _extract_json (lines 81-99) ---------- -/

def lastIdxOf (l : List Char) (c : Char) : Option Nat :=
  match l.reverse.findIdx? (fun x => x == c) with
  | some k => some (l.length - 1 - k)
  | Option.none => Option.none

/-- _extract_json: clean the text, try a direct parse, then fall back to
    the substring from the first opening brace to the last closing brace. -/
def _extract_json (raw : String) : Option PyVal :=
  let cleaned := _clean_text_preserve_json (some raw)
  if cleaned == "" then Option.none
  else
    match jsonLoads cleaned with
    | some v => some v
    | Option.none =>
      match cleaned.data.findIdx? (fun x => x == lbrace), lastIdxOf cleaned.data rbrace with
      | some s, some e =>
        if s < e then jsonLoads (String.mk ((cleaned.data.drop s).take (e + 1 - s)))
        else Option.none
      | _, _ => Option.none

/- ---------- _coerce_result (lines 121-169) ---------- -/

/-- The or-chain for the label field. -/
def labelRaw (d : PyDict) : PyVal :=
  pyOr (dictGet d "label") (pyOr (dictGet d "sentiment") (dictGet d "prediction"))

/-- The or-chain for the confidence field (default 0.0). -/
def confRaw (d : PyDict) : PyVal :=
  pyOr (dictGet d "confidence") (pyOr (dictGet d "score") (.float (.fin ⟨0, 1⟩)))

/-- The or-chain for the explanation field (default ""). -/
def explRaw (d : PyDict) : PyVal :=
  pyOr (dictGet d "explanation") (pyOr (dictGet d "rationale")
    (pyOr (dictGet d "reason") (pyOr (dictGet d "justification") (.str ""))))

/-- The or-chain for the evidence field (default []). -/
def evRaw (d : PyDict) : PyVal :=
  pyOr (dictGet d "evidence_phrases") (pyOr (dictGet d "evidence")
    (pyOr (dictGet d "highlights") (.list [])))

/-- A maximal run of decimal digits that may contain single underscores
    strictly between digits (PEP 515, accepted by float()): returns the
    digits with underscores removed and the unconsumed remainder.
    Fuel-driven; instantiated with the input length. -/
def digitsURun : Nat → List Char → List Char × List Char
  | 0, l => ([], l)
  | f + 1, [] => ([], [])
  | f + 1, c :: rest =>
    if c.isDigit then
      match rest with
      | '_' :: d :: rest2 =>
        if d.isDigit then
          let p := digitsURun f (d :: rest2)
          (c :: p.1, p.2)
        else ([c], rest)
      | _ =>
        let p := digitsURun f rest
        (c :: p.1, p.2)
    else ([], c :: rest)

/-- float(s) for a string argument: optional sign, then the spellings nan
    / inf / infinity (case-insensitive), or digits with an optional point
    on either side and an optional exponent, with single underscores
    allowed between digits; surrounding whitespace allowed. -/
def pyFloatOfStr (s : String) : Option PyFloat :=
  let l := trimChars s.data
  let neg := l.head? == some '-'
  let l1 := if l.head? == some '-' || l.head? == some '+' then l.drop 1 else l
  let low := l1.map Char.toLower
  if low == "nan".data then some PyFloat.nan
  else if low == "inf".data || low == "infinity".data then some (.inf neg)
  else
    let pd := digitsURun l1.length l1
    let ds := pd.1
    let r1 := pd.2
    let hasDot := r1.head? == some '.'
    let fp := if hasDot then digitsURun (r1.drop 1).length (r1.drop 1) else ([], r1)
    let fs := fp.1
    let r2 := if hasDot then fp.2 else r1
    if ds.isEmpty && fs.isEmpty then Option.none
    else
      let hasExp := r2.head? == some 'e' || r2.head? == some 'E'
      let expNeg := hasExp && (r2.drop 1).head? == some '-'
      let r3 :=
        if hasExp then
          if (r2.drop 1).head? == some '-' || (r2.drop 1).head? == some '+' then r2.drop 2
          else r2.drop 1
        else r2
      let ep := if hasExp then digitsURun r3.length r3 else ([], r3)
      let es := ep.1
      let r4 := if hasExp then ep.2 else r2
      if hasExp && es.isEmpty then Option.none
      else if !r4.isEmpty then Option.none
      else
        let sgn : Int := if neg then -1 else 1
        let mant : Int := sgn * (digitsToNat ds * tenPow fs.length + digitsToNat fs)
        let e := digitsToNat es
        some (.fin (if hasExp && expNeg then ⟨mant, fs.length + e⟩
              else if hasExp then ⟨mant * tenPow e, fs.length⟩
              else ⟨mant, fs.length⟩))

/-- float(v): succeeds on bool / int / float / numeric strings, fails
    (TypeError / ValueError, caught by the code) otherwise. -/
def pyFloat : PyVal → Option PyFloat
  | .int n => some (.fin ⟨n, 0⟩)
  | .float x => some x
  | .bool b => some (.fin ⟨if b then 1 else 0, 0⟩)
  | .str s => pyFloatOfStr s
  | _ => Option.none

/-- confidence < 0.0: false on nan (any comparison with nan is false),
    true exactly on negative infinity among the specials. -/
def pfLt0 : PyFloat → Bool
  | .fin p => decide (p.num < 0)
  | PyFloat.nan => false
  | .inf neg => neg

/-- confidence > 1.0: false on nan, true exactly on positive infinity
    among the specials. -/
def pfGt1 : PyFloat → Bool
  | .fin p => decide ((tenPow p.scale : Int) < p.num)
  | PyFloat.nan => false
  | .inf neg => !neg

/-- The confidence value before rounding: float() conversion with 0.0 on
    failure, then 0.0 when outside the closed interval from 0 to 1.
    The comparisons are both false on nan, so a nan conversion result
    passes the range check unchanged. -/
def confVal (d : PyDict) : PyFloat :=
  let c := match pyFloat (confRaw d) with
    | some x => x
    | Option.none => .fin ⟨0, 1⟩
  if pfLt0 c || pfGt1 c then .fin ⟨0, 1⟩ else c

/-- round(x, 2) on a finite decimal (round-half-to-even). -/
def rnd2 (x : PyNum) : PyNum :=
  let n := x.num * 100
  let d : Int := tenPow x.scale
  let f := n / d
  let r := n % d
  ⟨if 2 * r < d then f else if d < 2 * r then f + 1 else if f % 2 == 0 then f else f + 1, 2⟩

/-- round(x, 2) on a full float: nan and the infinities round to themselves. -/
def rnd2f : PyFloat → PyFloat
  | .fin p => .fin (rnd2 p)
  | x => x

/-- str(x).strip() for the scalar elements kept from an evidence list
    (bool is an int in Python, so it is kept too); None for non-scalars. -/
def scalarStr : PyVal → Option String
  | .str s => some (pyStrip s)
  | .int n => some (pyStrip (toString n))
  | .float x => some (pyStrip (pyFloatRender x))
  | .bool b => some (pyStrip (if b then "True" else "False"))
  | _ => Option.none

def evDelim (c : Char) : Bool := c == '|' || c == ';'

/-- re.split on a pipe-or-semicolon delimiter followed by optional
    whitespace, fuel-driven. -/
def evSplitAux : Nat → List Char → List Char → List String
  | 0, rest, acc => [String.mk (acc.reverse ++ rest)]
  | _, [], acc => [String.mk acc.reverse]
  | f + 1, c :: rest, acc =>
    if evDelim c then String.mk acc.reverse :: evSplitAux f (rest.dropWhile pyWs) []
    else evSplitAux f rest (c :: acc)

/-- The single-string evidence case: split, strip each part, drop empties. -/
def evSplit (s : String) : List String :=
  ((evSplitAux s.data.length s.data []).map pyStrip).filter (fun p => !(p == ""))

/-- The evidence_phrases field: list elements coerced through scalarStr,
    a single string split on delimiters, anything else empty; at most 3. -/
def evList (d : PyDict) : List String :=
  (match evRaw d with
   | .list xs => xs.filterMap scalarStr
   | .str s => evSplit s
   | _ => []).take 3

def pyTypeName : PyVal → String
  | .none => "NoneType"
  | .bool _ => "bool"
  | .int _ => "int"
  | .float _ => "float"
  | .str _ => "str"
  | .list _ => "list"
  | .dict _ => "dict"

def noGetMsg (v : PyVal) : String :=
  "\x27" ++ pyTypeName v ++ "\x27 object has no attribute \x27get\x27"

/-- _coerce_result: coerce a parsed value into the canonical schema.
    Of the json value shapes only dict has a .get attribute, so every
    non-dict argument raises AttributeError at the first lookup. -/
def _coerce_result (parsed : PyVal) : Except PyErr AnalysisResult :=
  match parsed with
  | .dict d =>
    match _normalize_label (labelRaw d) with
    | .error e => .error e
    | .ok lab => .ok ⟨lab, rnd2f (confVal d), _shorten_explanation (explRaw d) 2, evList d⟩
  | v => .error (.attributeError (noGetMsg v))

/- ---------- the few-shot corpus and prompt (lines 173-304) ---------- -/

/-- One worked example of the fixed few-shot corpus. -/
structure FewShotEx where
  review : String
  js : PyVal

/-- The process-wide constant _FEW_SHOT list, in source order. -/
def _FEW_SHOT : List FewShotEx := [
  ⟨"Loved the soundtrack and the performances, even though the story drags in the middle.",
   .dict [("label", .str "Positive"), ("confidence", .float (.fin ⟨86, 2⟩)),
          ("explanation", .str "Praise for soundtrack and performances outweighs the pacing complaint."),
          ("evidence_phrases", .list [.str "Loved the soundtrack", .str "performances", .str "story drags"])]⟩,
  ⟨"Terrible pacing and wooden acting. Do not recommend.",
   .dict [("label", .str "Negative"), ("confidence", .float (.fin ⟨94, 2⟩)),
          ("explanation", .str "Strong negative language about pacing and acting."),
          ("evidence_phrases", .list [.str "Terrible pacing", .str "wooden acting", .str "Do not recommend"])]⟩,
  ⟨"Great acting, but the story was boring.",
   .dict [("label", .str "Neutral"), ("confidence", .float (.fin ⟨70, 2⟩)),
          ("explanation", .str "The review praises the acting but criticizes the story, making the sentiment balanced."),
          ("evidence_phrases", .list [.str "Great acting", .str "story was boring"])]⟩,
  ⟨"Great acting, but the story was boring.",
   .dict [("label", .str "Positive"), ("confidence", .float (.fin ⟨75, 2⟩)),
          ("explanation", .str "The review is mostly positive about the acting, but notes the story as a drawback."),
          ("evidence_phrases", .list [.str "Great acting", .str "story was boring"])]⟩,
  ⟨"The cinematography was stunning, though the pacing was a bit slow.",
   .dict [("label", .str "Positive"), ("confidence", .float (.fin ⟨75, 2⟩)),
          ("explanation", .str "The review is mostly positive about cinematography, but mentions slow pacing as a drawback."),
          ("evidence_phrases", .list [.str "cinematography was stunning", .str "pacing was a bit slow"])]⟩,
  ⟨"The plot was messy and confusing, though the soundtrack was nice.",
   .dict [("label", .str "Negative"), ("confidence", .float (.fin ⟨78, 2⟩)),
          ("explanation", .str "The review is mostly negative about the plot, but notes the soundtrack positively."),
          ("evidence_phrases", .list [.str "plot was messy and confusing", .str "soundtrack was nice"])]⟩,
  ⟨"The movie releases next week and stars two actors.",
   .dict [("label", .str "Neutral"), ("confidence", .float (.fin ⟨70, 2⟩)),
          ("explanation", .str "Factual description without a clear opinion."),
          ("evidence_phrases", .list [])]⟩]

def hexDig (n : Nat) : Char := if n < 10 then Char.ofNat (48 + n) else Char.ofNat (87 + n)

/-- json string escaping (ensure_ascii is False in the source, so non-ascii
    characters pass through unchanged). -/
def escChar (c : Char) : List Char :=
  if c == '"' then ['\\', '"']
  else if c == '\\' then ['\\', '\\']
  else if c == '\n' then ['\\', 'n']
  else if c == '\t' then ['\\', 't']
  else if c == '\r' then ['\\', 'r']
  else if c == '\x08' then ['\\', 'b']
  else if c == '\x0c' then ['\\', 'f']
  else if c.toNat < 32 then ['\\', 'u', '0', '0', hexDig (c.toNat / 16), hexDig (c.toNat % 16)]
  else [c]

def jsonEscape (s : String) : String := String.mk (s.data.map escChar).flatten

/-- json.dumps with the default separators (", " and ": "), fuel-bounded
    on nesting depth. -/
def jsonDumpsV : Nat → PyVal → String
  | _, PyVal.none => "null"
  | _, .bool true => "true"
  | _, .bool false => "false"
  | _, .int n => toString n
  | _, .float (.fin p) => qDecRender p
  | _, .float PyFloat.nan => "NaN"
  | _, .float (.inf false) => "Infinity"
  | _, .float (.inf true) => "-Infinity"
  | _, .str s => "\"" ++ jsonEscape s ++ "\""
  | 0, _ => ""
  | f + 1, .list xs => "[" ++ sjoin ", " (xs.map (jsonDumpsV f)) ++ "]"
  | f + 1, .dict d =>
    "\x7b" ++ sjoin ", " (d.map (fun p => "\"" ++ jsonEscape p.1 ++ "\": " ++ jsonDumpsV f p.2)) ++ "\x7d"

def jsonDumps (v : PyVal) : String := jsonDumpsV 100 v

/-- The triple-quoted _PROMPT_INSTRUCTIONS constant (verbatim, including
    the leading and trailing newline of the triple-quoted literal). -/
def _PROMPT_INSTRUCTIONS : String :=
  "\nYou are a precise movie-review sentiment classifier.\n\nReturn ONLY one compact JSON object and nothing else. No commentary, no markdown.\nSchema (exact):\n\x7b\n  \"label\": \"Positive | Negative | Neutral\",\n  \"confidence\": 0.00,\n  \"explanation\": \"Short reason grounded in the text (1-2 short sentences).\",\n  \"evidence_phrases\": [\"phrase1\", \"phrase2\"]\n\x7d\n\nRules:\n- Base judgment only on the provided review text.\n- Sarcasm: if sarcasm exists but target is ambiguous -> Neutral (Strict).\n- Comparisons (\"better than the last one\"): use relative tone; if overall favorable -> Positive.\n- Third-party quotes without reviewer stance -> Neutral unless reviewer endorses/opposes.\n- Mixed opinions (\"great acting, boring plot\"):\n  - STRICT mode: If review contains both positives and negatives, output \"Neutral\" in label unless one side is overwhelmingly dominant.\n  - LENIENT mode: If review contains both positives and negatives, choose the stronger side (Positive or Negative) as the label. Always mention the weaker side in the explanation.\n\nReturn valid JSON that follows the schema exactly. Keep \"explanation\" short (one or two short sentences).\n"

/-- The STRICT-mode directive sentence set. -/
def strictModeInstr : String :=
  "STRICT mode active: For mixed reviews (both good and bad), output must be \x27Neutral\x27 unless one side is extremely dominant."

/-- The LENIENT-mode directive sentence set. -/
def lenientModeInstr : String :=
  "LENIENT mode active: For mixed reviews (both good and bad), pick the dominant sentiment (Positive or Negative) as the label. Always mention the weaker side in the explanation."

/-- The joined few-shot block of the prompt. -/
def examplesText : String :=
  sjoin "\n\n" (_FEW_SHOT.map (fun ex => "Review: \"" ++ ex.review ++ "\"\nJSON: " ++ jsonDumps ex.js))

/-- The prompt built inside analyze_review for a non-empty review. -/
def buildPrompt (review : String) (strict : Bool) : String :=
  _PROMPT_INSTRUCTIONS ++ "\nMode instruction: " ++
    (if strict then strictModeInstr else lenientModeInstr) ++ "\n\n" ++ examplesText ++
    "\n\nReview: \"" ++ review ++ "\"\nReturn the JSON now."

/- ---------- analyze_review (lines 278-318) ---------- -/

/-- The fixed default result for empty input. -/
def defaultResult : AnalysisResult :=
  ⟨"Neutral", .fin ⟨0, 1⟩, "No review text provided.", []⟩

/-- The diagnostic message raised when the model output is unparsable. -/
def diagMsg (raw : String) : String :=
  "Model did not return parseable JSON. Raw output:\n" ++ raw

/-- analyze_review.  The external model call is abstracted as a function
    from the prompt to the raw response text (resp.text); temperature and
    max_output_tokens only configure that external call, so they are
    absorbed into the oracle. -/
def reviewArg (review : Option String) : String :=
  match review with
  | some s => s
  | Option.none => ""

def analyze_review (model : String → String) (review : Option String) (strict : Bool) :
    Except PyErr AnalysisResult :=
  let r := pyStrip (reviewArg review)
  if r = "" then .ok defaultResult
  else
    let raw := model (buildPrompt r strict)
    match _extract_json raw with
    | some parsed =>
      if isTruthy parsed then _coerce_result parsed else .error (.valueError (diagMsg raw))
    | Option.none => .error (.valueError (diagMsg raw))

/- ---------- spec-side definitions used to compare against the claims - -/

def isAbsent : PyVal → Bool
  | PyVal.none => true
  | _ => false

/-- First value that is not absent (claim wording for C5 / C6). -/
def firstNonAbsent (vs : List PyVal) (dflt : PyVal) : PyVal :=
  match vs.find? (fun v => !(isAbsent v)) with
  | some v => v
  | Option.none => dflt

/-- First truthy value (the behaviour the or-chains implement). -/
def firstTruthy (vs : List PyVal) (dflt : PyVal) : PyVal :=
  match vs.find? isTruthy with
  | some v => v
  | Option.none => dflt

/-- Confidence as described by claim C5's words: the first non-absent
    value among the confidence and score keys, 0.0 when absent, 0.0 on
    conversion failure or out-of-range, rounded to 2 decimals. -/
def claimConfC5 (d : PyDict) : PyFloat :=
  let v := firstNonAbsent [dictGet d "confidence", dictGet d "score"] (.float (.fin ⟨0, 1⟩))
  let c := match pyFloat v with
    | some x => x
    | Option.none => .fin ⟨0, 1⟩
  rnd2f (if pfLt0 c || pfGt1 c then .fin ⟨0, 1⟩ else c)

/-- Confidence as described by the amended claim: the first truthy value
    among the confidence and score keys, with the same conversion,
    clamping and rounding. -/
def confSpecAmended (d : PyDict) : PyFloat :=
  let v := firstTruthy [dictGet d "confidence", dictGet d "score"] (.float (.fin ⟨0, 1⟩))
  let c := match pyFloat v with
    | some x => x
    | Option.none => .fin ⟨0, 1⟩
  rnd2f (if pfLt0 c || pfGt1 c then .fin ⟨0, 1⟩ else c)

/-- The untrimmed string form of a scalar, as claim C6 words it. -/
def specStrForm : PyVal → Option String
  | .str s => some s
  | .int n => some (toString n)
  | .float q => some (pyFloatRender q)
  | .bool b => some (if b then "True" else "False")
  | _ => Option.none

/-- Evidence as described by claim C6: first non-absent value among the
    three alias keys; a sequence keeps the plain string forms of its scalar
    elements; a single string is split on delimiters; else empty; at most 3. -/
def claimEvC6 (d : PyDict) : List String :=
  (match firstNonAbsent [dictGet d "evidence_phrases", dictGet d "evidence",
      dictGet d "highlights"] (.list []) with
   | .list xs => xs.filterMap specStrForm
   | .str s => evSplit s
   | _ => []).take 3

/-- Evidence as described by the amended claim: first truthy value among
    the three alias keys; a sequence keeps the trimmed string forms of its
    scalar elements; a single string is split on delimiters with parts
    trimmed and empties dropped; anything else is empty; at most 3. -/
def evSpecAmended (d : PyDict) : List String :=
  (match firstTruthy [dictGet d "evidence_phrases", dictGet d "evidence",
      dictGet d "highlights"] (.list []) with
   | .list xs => xs.filterMap scalarStr
   | .str s => evSplit s
   | _ => []).take 3


/-- The expected few-shot block, written out as a literal: seven worked
    examples joined by blank lines, each a quoted review followed by its
    exact json.dumps text. -/
def examplesTextLit : String :=
  "Review: \"Loved the soundtrack and the performances, even though the story drags in the middle.\"\nJSON: \x7b\"label\": \"Positive\", \"confidence\": 0.86, \"explanation\": \"Praise for soundtrack and performances outweighs the pacing complaint.\", \"evidence_phrases\": [\"Loved the soundtrack\", \"performances\", \"story drags\"]\x7d"
    ++ "\n\n" ++ "Review: \"Terrible pacing and wooden acting. Do not recommend.\"\nJSON: \x7b\"label\": \"Negative\", \"confidence\": 0.94, \"explanation\": \"Strong negative language about pacing and acting.\", \"evidence_phrases\": [\"Terrible pacing\", \"wooden acting\", \"Do not recommend\"]\x7d"
    ++ "\n\n" ++ "Review: \"Great acting, but the story was boring.\"\nJSON: \x7b\"label\": \"Neutral\", \"confidence\": 0.7, \"explanation\": \"The review praises the acting but criticizes the story, making the sentiment balanced.\", \"evidence_phrases\": [\"Great acting\", \"story was boring\"]\x7d"
    ++ "\n\n" ++ "Review: \"Great acting, but the story was boring.\"\nJSON: \x7b\"label\": \"Positive\", \"confidence\": 0.75, \"explanation\": \"The review is mostly positive about the acting, but notes the story as a drawback.\", \"evidence_phrases\": [\"Great acting\", \"story was boring\"]\x7d"
    ++ "\n\n" ++ "Review: \"The cinematography was stunning, though the pacing was a bit slow.\"\nJSON: \x7b\"label\": \"Positive\", \"confidence\": 0.75, \"explanation\": \"The review is mostly positive about cinematography, but mentions slow pacing as a drawback.\", \"evidence_phrases\": [\"cinematography was stunning\", \"pacing was a bit slow\"]\x7d"
    ++ "\n\n" ++ "Review: \"The plot was messy and confusing, though the soundtrack was nice.\"\nJSON: \x7b\"label\": \"Negative\", \"confidence\": 0.78, \"explanation\": \"The review is mostly negative about the plot, but notes the soundtrack positively.\", \"evidence_phrases\": [\"plot was messy and confusing\", \"soundtrack was nice\"]\x7d"
    ++ "\n\n" ++ "Review: \"The movie releases next week and stars two actors.\"\nJSON: \x7b\"label\": \"Neutral\", \"confidence\": 0.7, \"explanation\": \"Factual description without a clear opinion.\", \"evidence_phrases\": []\x7d"

/- ==================== lemmas and claim theorems ==================== -/

set_option maxRecDepth 100000

theorem strMk_len (l : List Char) : (String.mk l).length = l.length := rfl

theorem isAbsent_false_of_ne {v : PyVal} (h : v ≠ PyVal.none) : isAbsent v = false := by
  cases v <;> first | exact absurd rfl h | rfl

theorem dropWhile_len_le (p : Char → Bool) (l : List Char) :
    (l.dropWhile p).length ≤ l.length :=
  (List.dropWhile_suffix p).sublist.length_le

theorem rsplitHead_len_le (l : List Char) : (rsplitHead l).length ≤ l.length := by
  rw [rsplitHead]
  split
  · calc ((l.reverse.dropWhile (fun c => !(c == ' '))).drop 1).reverse.length
        ≤ (l.reverse.dropWhile (fun c => !(c == ' '))).length := by
          rw [List.length_reverse]; exact (List.length_drop 1 _) ▸ Nat.sub_le _ _
      _ ≤ l.reverse.length := dropWhile_len_le _ _
      _ = l.length := List.length_reverse _
  · exact le_refl _

theorem normalize_label_ne_none (v : PyVal) (h : v ≠ PyVal.none) :
    _normalize_label v =
      (let lab := pyLower (pyStrip (pyStr v))
       if posAliases.contains lab then .ok "Positive"
       else if negAliases.contains lab then .ok "Negative"
       else if neuAliases.contains lab then .ok "Neutral"
       else .error (.valueError ("Invalid label from model: \x27" ++ pyStr v ++ "\x27"))) := by
  cases v <;> first | exact absurd rfl h | rfl

/-- C1: the label normalizer fails on an absent input; otherwise the
    lower-cased, trimmed string form is matched against the three fixed
    alias sets, yielding exactly Positive / Negative / Neutral; any other
    value fails with an error naming the raw value, and no string other
    than the three canonical labels is ever returned. -/
theorem normalize_label_c1 (v : PyVal) :
    (v = PyVal.none →
      _normalize_label v = .error (.valueError "Label missing from model output")) ∧
    (v ≠ PyVal.none →
      (pyLower (pyStrip (pyStr v)) ∈ posAliases → _normalize_label v = .ok "Positive") ∧
      (pyLower (pyStrip (pyStr v)) ∈ negAliases → _normalize_label v = .ok "Negative") ∧
      (pyLower (pyStrip (pyStr v)) ∈ neuAliases → _normalize_label v = .ok "Neutral") ∧
      (pyLower (pyStrip (pyStr v)) ∉ posAliases ++ negAliases ++ neuAliases →
        _normalize_label v =
          .error (.valueError ("Invalid label from model: \x27" ++ pyStr v ++ "\x27")))) ∧
    (∀ lab, _normalize_label v = .ok lab →
      lab = "Positive" ∨ lab = "Negative" ∨ lab = "Neutral") := by
  refine ⟨fun h => by subst h; rfl, fun hne => ?_, fun lab hok => ?_⟩
  · rw [normalize_label_ne_none v hne]
    set s := pyLower (pyStrip (pyStr v)) with hs
    refine ⟨fun h => ?_, fun h => ?_, fun h => ?_, fun h => ?_⟩
    · simp [posAliases] at h
      rcases h with h | h | h <;> simp [h, posAliases]
    · simp [negAliases] at h
      rcases h with h | h | h <;> simp [h, posAliases, negAliases]
    · simp [neuAliases] at h
      rcases h with h | h | h | h <;> simp [h, posAliases, negAliases, neuAliases]
    · simp [posAliases, negAliases, neuAliases] at h
      simp [posAliases, negAliases, neuAliases, h]
  · by_cases hne : v = PyVal.none
    · subst hne; cases hok
    · rw [normalize_label_ne_none v hne] at hok
      simp only at hok
      split at hok
      · exact Or.inl (Except.ok.inj hok).symm
      · split at hok
        · exact Or.inr (Or.inl (Except.ok.inj hok).symm)
        · split at hok
          · exact Or.inr (Or.inr (Except.ok.inj hok).symm)
          · cases hok

/-- Witness for C1 at concrete alias, canonical-with-spaces and invalid inputs. -/
theorem normalize_label_c1_witness :
    _normalize_label (PyVal.str " POSITIVE ") = .ok "Positive" ∧
    _normalize_label (PyVal.str "n") = .ok "Negative" ∧
    _normalize_label (PyVal.str "mixed") =
      .error (.valueError "Invalid label from model: \x27mixed\x27") := by
  refine ⟨?_, ?_, ?_⟩
  · exact ((normalize_label_c1 (PyVal.str " POSITIVE ")).2.1 (by intro h; cases h)).1 (by decide)
  · exact ((normalize_label_c1 (PyVal.str "n")).2.1 (by intro h; cases h)).2.1 (by decide)
  · exact ((normalize_label_c1 (PyVal.str "mixed")).2.1 (by intro h; cases h)).2.2.2 (by decide)

/-- Counterexample to C2 as stated: on an input of 241 non-space
    characters the shortener returns 243 characters (240 kept plus the
    three-character ellipsis marker), exceeding the claimed 240 bound. -/
theorem shorten_explanation_c2_cex :
    ¬ ((_shorten_explanation (PyVal.str (String.mk (List.replicate 241 'a'))) 2).length ≤ 240) := by
  decide

theorem shorten_eq (text : PyVal) (m : Nat) :
    _shorten_explanation text m =
      if isTruthy text = false then ""
      else if 240 < (shortJoin text m).data.length then
        String.mk (rsplitHead ((shortJoin text m).data.take 240)) ++ "..."
      else shortJoin text m := by
  by_cases ht : isTruthy text
  · by_cases hl : 240 < (shortJoin text m).data.length <;>
      simp [_shorten_explanation, ht, hl]
  · simp only [Bool.not_eq_true] at ht
    simp [_shorten_explanation, ht]

/-- C2 as amended: the shortener never fails, absent / empty (falsy) input
    yields the empty string, the output never exceeds 243 characters, and
    when the kept sentences exceed 240 characters the output is the first
    240 characters backed up to the last space (all 240 when there is no
    space) with the three-character ellipsis marker appended. -/
theorem shorten_explanation_c2 (text : PyVal) (max_sentences : Nat) :
    (isTruthy text = false → _shorten_explanation text max_sentences = "") ∧
    (_shorten_explanation text max_sentences).length ≤ 243 ∧
    (isTruthy text = true → 240 < (shortJoin text max_sentences).length →
      _shorten_explanation text max_sentences =
        String.mk (rsplitHead ((shortJoin text max_sentences).data.take 240)) ++ "...") ∧
    (isTruthy text = true → (shortJoin text max_sentences).length ≤ 240 →
      _shorten_explanation text max_sentences = shortJoin text max_sentences) := by
  have hdl : (shortJoin text max_sentences).length = (shortJoin text max_sentences).data.length := rfl
  rw [shorten_eq]
  refine ⟨fun h => by simp [h], ?_, fun ht hl => ?_, fun ht hle => ?_⟩
  · split
    · simp
    · split
      · rw [String.length_append, strMk_len]
        have h1 : (rsplitHead ((shortJoin text max_sentences).data.take 240)).length ≤ 240 := by
          refine le_trans (rsplitHead_len_le _) ?_
          rw [List.length_take]
          exact min_le_left _ _
        have h2 : ("..." : String).length = 3 := rfl
        omega
      · omega
  · simp [ht]
    intro hc
    omega
  · simp [ht]
    intro hc
    omega

/-- Witness for C2 at an empty input and at a four-sentence input kept to
    two sentences. -/
theorem shorten_explanation_c2_witness :
    _shorten_explanation (PyVal.str "") 2 = "" ∧
    _shorten_explanation (PyVal.str "One sent. Two sent! Three? Four.") 2 =
      "One sent. Two sent!" := by
  constructor
  · exact (shorten_explanation_c2 (PyVal.str "") 2).1 rfl
  · have h := (shorten_explanation_c2 (PyVal.str "One sent. Two sent! Three? Four.") 2).2.2.2
      rfl (by decide)
    rw [h]
    rfl

/-- C4: an absent review or one that trims to the empty string
    short-circuits to the fixed default result (label Neutral, confidence
    0.0, the fixed explanation, no evidence) without failing; the result
    does not depend on the model oracle, so the external model is never
    invoked on this path. -/
theorem analyze_review_empty_c4 (model : String → String) (review : Option String)
    (strict : Bool)
    (h : pyStrip (reviewArg review) = "") :
    analyze_review model review strict =
      .ok ⟨"Neutral", .fin ⟨0, 1⟩, "No review text provided.", []⟩ := by
  simp [analyze_review, h, defaultResult]

/-- Witness for C4: a whitespace-only review and an absent review. -/
theorem analyze_review_empty_c4_witness :
    analyze_review (fun _ => "model output that would not parse") (some "   ") true =
      .ok ⟨"Neutral", .fin ⟨0, 1⟩, "No review text provided.", []⟩ ∧
    analyze_review (fun _ => "irrelevant") Option.none false =
      .ok ⟨"Neutral", .fin ⟨0, 1⟩, "No review text provided.", []⟩ :=
  ⟨analyze_review_empty_c4 _ (some "   ") true (by decide),
   analyze_review_empty_c4 _ Option.none false (by decide)⟩

theorem takeToLastRBrace_cons (c : Char) (rest : List Char) (h : rbrace ∈ rest) :
    takeToLastRBrace (c :: rest) = c :: takeToLastRBrace rest := by
  have hne : (rest.reverse.dropWhile (fun x => !(x == rbrace))).isEmpty = false := by
    cases hh : (rest.reverse.dropWhile (fun x => !(x == rbrace))).isEmpty with
    | false => rfl
    | true =>
      exfalso
      have hnil : rest.reverse.dropWhile (fun x => !(x == rbrace)) = [] := by
        simpa using hh
      have := List.dropWhile_eq_nil_iff.mp hnil rbrace (List.mem_reverse.mpr h)
      simp at this
  rw [takeToLastRBrace, List.reverse_cons, List.dropWhile_append, hne]
  simp [takeToLastRBrace]

theorem jsonBlockSearch_spec (l : List Char) :
    ((∃ A B, l = A ++ lbrace :: B ∧ rbrace ∈ B) →
      jsonBlockSearch l = some (braceSpan l)) ∧
    ((¬ ∃ A B, l = A ++ lbrace :: B ∧ rbrace ∈ B) → jsonBlockSearch l = Option.none) := by
  induction l with
  | nil =>
    refine ⟨fun h => ?_, fun _ => rfl⟩
    obtain ⟨A, B, hEq, _⟩ := h
    exact absurd hEq.symm (by simp)
  | cons c rest ih =>
    by_cases hc : (c == lbrace && rest.contains rbrace) = true
    · have hcl : c = lbrace := by
        have := (Bool.and_eq_true _ _).mp hc
        exact eq_of_beq this.1
      have hmem : rbrace ∈ rest := by
        have := (Bool.and_eq_true _ _).mp hc
        exact List.elem_iff.mp this.2
      refine ⟨fun _ => ?_, fun hn => absurd ⟨[], rest, by simp [hcl], hmem⟩ hn⟩
      subst hcl
      have hsearch : jsonBlockSearch (lbrace :: rest) = some (lbrace :: takeToLastRBrace rest) := by
        simp only [jsonBlockSearch]
        rw [if_pos hc]
      rw [hsearch, braceSpan]
      have hdw : (lbrace :: rest).dropWhile (fun x => !(x == lbrace)) = lbrace :: rest := by
        rw [List.dropWhile_cons]
        simp
      rw [hdw, takeToLastRBrace_cons lbrace rest hmem]
    · have hsearch : jsonBlockSearch (c :: rest) = jsonBlockSearch rest := by
        simp only [jsonBlockSearch]
        rw [if_neg (by simpa using hc)]
      refine ⟨fun h => ?_, fun hn => ?_⟩
      · obtain ⟨A, B, hEq, hB⟩ := h
        cases A with
        | nil =>
          simp only [List.nil_append] at hEq
          have hcl : c = lbrace := (List.cons.injEq _ _ _ _).mp hEq |>.1
          have hrest : rest = B := (List.cons.injEq _ _ _ _).mp hEq |>.2
          exact absurd (by
            rw [Bool.and_eq_true]
            exact ⟨by rw [hcl]; simp, List.elem_iff.mpr (hrest ▸ hB)⟩) hc
        | cons a A2 =>
          simp only [List.cons_append] at hEq
          have hca : c = a := (List.cons.injEq _ _ _ _).mp hEq |>.1
          have hrest : rest = A2 ++ lbrace :: B := (List.cons.injEq _ _ _ _).mp hEq |>.2
          have hcl : ¬ (c = lbrace) := by
            intro hcl
            have hmem : rbrace ∈ rest := by
              rw [hrest]
              exact List.mem_append_right _ (List.mem_cons_of_mem _ hB)
            exact absurd (by
              rw [Bool.and_eq_true]
              exact ⟨by rw [hcl]; simp, List.elem_iff.mpr hmem⟩) hc
          rw [hsearch, (ih.1 ⟨A2, B, hrest, hB⟩)]
          have : braceSpan (c :: rest) = braceSpan rest := by
            rw [braceSpan, braceSpan, List.dropWhile_cons, if_pos (by simp [hcl])]
          rw [this]
      · rw [hsearch]
        refine ih.2 (fun hex => ?_)
        obtain ⟨A, B, hEq, hB⟩ := hex
        exact hn ⟨c :: A, B, by rw [List.cons_append, hEq], hB⟩

/-- C7: the sanitizer never fails; an absent input yields the empty
    string; after the fence-stripping step, when the text contains an
    opening brace with a closing brace somewhere after it the result is
    the substring from the first opening brace to the last closing brace
    (the greedy whole-text match), and otherwise the cleaned text is
    returned as-is. -/
theorem clean_text_c7 :
    _clean_text_preserve_json Option.none = "" ∧
    ∀ s : String,
      ((∃ A B, (fenceStrip s).data = A ++ lbrace :: B ∧ rbrace ∈ B) →
        _clean_text_preserve_json (some s) = String.mk (braceSpan (fenceStrip s).data)) ∧
      ((¬ ∃ A B, (fenceStrip s).data = A ++ lbrace :: B ∧ rbrace ∈ B) →
        _clean_text_preserve_json (some s) = fenceStrip s) := by
  refine ⟨rfl, fun s => ⟨fun h => ?_, fun h => ?_⟩⟩
  · have hs := (jsonBlockSearch_spec (fenceStrip s).data).1 h
    simp [_clean_text_preserve_json, hs]
  · have hs := (jsonBlockSearch_spec (fenceStrip s).data).2 h
    simp [_clean_text_preserve_json, hs]

/-- Witness for C7: a fenced json payload is unwrapped to the exact brace
    block, and a brace-free text is returned unchanged. -/
theorem clean_text_c7_witness :
    _clean_text_preserve_json
        (some "```json\n\x7b\"label\": \"Positive\", \"confidence\": 0.9\x7d\n```") =
      "\x7b\"label\": \"Positive\", \"confidence\": 0.9\x7d" ∧
    _clean_text_preserve_json (some "no braces here") = "no braces here" := by
  constructor
  · have h := (clean_text_c7.2
        "```json\n\x7b\"label\": \"Positive\", \"confidence\": 0.9\x7d\n```").1
      ⟨[], "\"label\": \"Positive\", \"confidence\": 0.9\x7d".data, by decide, by decide⟩
    rw [h]
    rfl
  · have h := (clean_text_c7.2 "no braces here").2 (by
      rintro ⟨A, B, hEq, hB⟩
      have hmem : lbrace ∈ (fenceStrip "no braces here").data := by
        rw [hEq]
        exact List.mem_append_right _ (List.mem_cons_self _ _)
      exact absurd hmem (by decide))
    rw [h]
    rfl

theorem examplesText_eq_lit : examplesText = examplesTextLit := rfl

/-- C8: for every review and both modes, the prompt is the fixed-order
    concatenation of the static instruction block, exactly one of the two
    distinct mode directives (the STRICT text when strict is true, the
    LENIENT text otherwise), the fixed few-shot block (equal to the
    written-out literal, which checks the json.dumps serialization of the
    corpus), and the quoted target review with the closing directive;
    being a total function of its two arguments it has no side effects
    and no failure mode. -/
theorem build_prompt_c8 (review : String) (strict : Bool) :
    buildPrompt review strict =
      _PROMPT_INSTRUCTIONS ++ "\nMode instruction: " ++
        (if strict then strictModeInstr else lenientModeInstr) ++ "\n\n" ++
        examplesTextLit ++ "\n\nReview: \"" ++ review ++ "\"\nReturn the JSON now." ∧
    strictModeInstr ≠ lenientModeInstr ∧
    buildPrompt review true ≠ buildPrompt review false := by
  refine ⟨by rw [buildPrompt, examplesText_eq_lit], by decide, fun h => ?_⟩
  have h2 := congrArg String.length h
  simp only [buildPrompt, String.length_append, Bool.false_eq_true, if_true, if_false] at h2
  have e1 : strictModeInstr.length = 122 := rfl
  have e2 : lenientModeInstr.length = 175 := rfl
  omega

theorem tenPow_pos (k : Nat) : 0 < tenPow k := Nat.pos_pow_of_pos k (by norm_num)

theorem rnd2_bounds (x : PyNum) (h0 : 0 ≤ x.num) (h1 : x.num ≤ (tenPow x.scale : Int)) :
    0 ≤ (rnd2 x).num ∧ (rnd2 x).num ≤ 100 := by
  have hd : (0 : Int) < (tenPow x.scale : Int) := by exact_mod_cast tenPow_pos x.scale
  have hn0 : 0 ≤ x.num * 100 := by positivity
  have hnd : x.num * 100 ≤ 100 * (tenPow x.scale : Int) := by nlinarith
  have hf0 : 0 ≤ x.num * 100 / (tenPow x.scale : Int) := Int.ediv_nonneg hn0 (le_of_lt hd)
  have hf100 : x.num * 100 / (tenPow x.scale : Int) ≤ 100 := by
    by_contra hcon
    push_neg at hcon
    have h101 : (101 : Int) ≤ x.num * 100 / (tenPow x.scale : Int) := hcon
    have := (Int.le_ediv_iff_mul_le hd).mp h101
    nlinarith
  have heq := Int.ediv_add_emod (x.num * 100) (tenPow x.scale : Int)
  have hr0 : 0 ≤ x.num * 100 % (tenPow x.scale : Int) := Int.emod_nonneg _ (ne_of_gt hd)
  have hrd : x.num * 100 % (tenPow x.scale : Int) < (tenPow x.scale : Int) :=
    Int.emod_lt_of_pos _ hd
  rw [rnd2]
  simp only []
  split
  · exact ⟨hf0, hf100⟩
  · rename_i hgt
    push_neg at hgt
    split
    · rename_i hlt
      constructor
      · omega
      · rcases lt_or_eq_of_le hf100 with hlt100 | heq100
        · omega
        · exfalso
          rw [heq100] at heq
          linarith
    · split
      · exact ⟨hf0, hf100⟩
      · rename_i hnlt
        push_neg at hnlt
        constructor
        · omega
        · rcases lt_or_eq_of_le hf100 with hlt100 | heq100
          · omega
          · exfalso
            rw [heq100] at heq
            linarith

theorem confVal_fin_range (d : PyDict) (p : PyNum) (h : confVal d = .fin p) :
    0 ≤ p.num ∧ p.num ≤ (tenPow p.scale : Int) := by
  rw [confVal] at h
  split at h
  · cases h
    exact ⟨le_refl 0, by norm_num [tenPow]⟩
  · rename_i hcond
    revert h hcond
    generalize (match pyFloat (confRaw d) with
      | some x => x
      | Option.none => PyFloat.fin ⟨0, 1⟩) = c
    intro hcond h
    cases c with
    | fin q =>
      cases h
      simp only [Bool.or_eq_true, not_or, pfLt0, pfGt1, decide_eq_true_eq] at hcond
      push_neg at hcond
      exact ⟨hcond.1, hcond.2⟩
    | nan => cases h
    | inf b =>
      exfalso
      cases b <;> simp [pfLt0, pfGt1] at hcond

theorem confVal_ne_inf (d : PyDict) (b : Bool) : confVal d ≠ .inf b := by
  rw [confVal]
  split
  · intro h
    cases h
  · rename_i hcond
    revert hcond
    generalize (match pyFloat (confRaw d) with
      | some x => x
      | Option.none => PyFloat.fin ⟨0, 1⟩) = c
    intro hcond h
    cases c with
    | fin q => cases h
    | nan => cases h
    | inf b2 => cases b2 <;> simp [pfLt0, pfGt1] at hcond

theorem confVal_nan_iff (d : PyDict) :
    confVal d = PyFloat.nan ↔ pyFloat (confRaw d) = some PyFloat.nan := by
  constructor
  · intro h
    rw [confVal] at h
    split at h
    · cases h
    · revert h
      cases hc : pyFloat (confRaw d) with
      | none => intro h; cases h
      | some x =>
        cases x with
        | fin q => intro h; cases h
        | nan => intro _; rfl
        | inf b => intro h; cases h
  · intro h
    rw [confVal, h]
    rfl

theorem confRaw_eq (d : PyDict) :
    confRaw d = firstTruthy [dictGet d "confidence", dictGet d "score"]
      (.float (.fin ⟨0, 1⟩)) := by
  cases h1 : isTruthy (dictGet d "confidence") <;>
    cases h2 : isTruthy (dictGet d "score") <;>
      simp [confRaw, pyOr, firstTruthy, List.find?, h1, h2]

/-- Counterexample to C5 as stated, refuting two of its clauses.  First,
    key fallback is not by non-absence: binding confidence to 0.0 and
    score to 0.9, the first non-absent value is the 0.0 bound to
    confidence, so the claim predicts a final confidence of 0.0, but the
    coercer skips the falsy 0.0 and returns 0.9.  Second, the final
    confidence does not always lie in the closed unit interval: the
    confidence string "nan" converts successfully (float accepts it),
    compares false to both clamp bounds, and rounds to itself, so the
    coercer returns a nan confidence. -/
theorem coerce_confidence_c5_cex :
    claimConfC5 [("confidence", .float (.fin ⟨0, 1⟩)), ("score", .float (.fin ⟨9, 1⟩))] =
      .fin ⟨0, 2⟩ ∧
    rnd2f (confVal [("confidence", .float (.fin ⟨0, 1⟩)), ("score", .float (.fin ⟨9, 1⟩))]) =
      .fin ⟨90, 2⟩ ∧
    _coerce_result (PyVal.dict [("confidence", .float (.fin ⟨0, 1⟩)),
        ("score", .float (.fin ⟨9, 1⟩)), ("label", .str "positive")]) =
      .ok ⟨"Positive", .fin ⟨90, 2⟩, "", []⟩ ∧
    PyFloat.fin ⟨90, 2⟩ ≠ PyFloat.fin ⟨0, 2⟩ ∧
    _coerce_result (PyVal.dict [("confidence", .str "nan"), ("label", .str "positive")]) =
      .ok ⟨"Positive", PyFloat.nan, "", []⟩ ∧
    (∀ p : PyNum, PyFloat.nan ≠ PyFloat.fin p) :=
  ⟨rfl, rfl, rfl, by decide, rfl, fun p h => PyFloat.noConfusion h⟩

/-- C5 as amended: the confidence field is computed from the first truthy
    value among the confidence and score keys (default 0.0); numeric
    conversion failure yields 0.0, and a comparably out-of-range value
    (including the infinities) yields 0.0, but nan compares false to both
    bounds and passes the range check; so the final confidence is nan
    exactly when the chosen value converts to nan, and otherwise is a
    finite value rounded to 2 decimal places (a whole number of
    hundredths) lying between 0 and 1; the computation is a total
    function, so this field never raises. -/
theorem coerce_confidence_c5 (d : PyDict) :
    rnd2f (confVal d) = confSpecAmended d ∧
    (confVal d = PyFloat.nan ↔ pyFloat (confRaw d) = some PyFloat.nan) ∧
    (∀ p : PyNum, rnd2f (confVal d) = .fin p →
      p.scale = 2 ∧ 0 ≤ p.num ∧ p.num ≤ 100) ∧
    (rnd2f (confVal d) = PyFloat.nan ∨ ∃ p, rnd2f (confVal d) = PyFloat.fin p) := by
  refine ⟨?_, confVal_nan_iff d, fun p hp => ?_, ?_⟩
  · rw [confSpecAmended, confVal, confRaw_eq]
  · cases hc : confVal d with
    | fin q =>
      rw [hc] at hp
      cases hp
      exact ⟨rfl, rnd2_bounds q (confVal_fin_range d q hc).1 (confVal_fin_range d q hc).2⟩
    | nan => rw [hc] at hp; cases hp
    | inf b => exact absurd hc (confVal_ne_inf d b)
  · cases hc : confVal d with
    | fin q => exact Or.inr ⟨rnd2 q, rfl⟩
    | nan => exact Or.inl rfl
    | inf b => exact absurd hc (confVal_ne_inf d b)

theorem evRaw_eq (d : PyDict) :
    evRaw d = firstTruthy [dictGet d "evidence_phrases", dictGet d "evidence",
      dictGet d "highlights"] (.list []) := by
  cases h1 : isTruthy (dictGet d "evidence_phrases") <;>
    cases h2 : isTruthy (dictGet d "evidence") <;>
      cases h3 : isTruthy (dictGet d "highlights") <;>
        simp [evRaw, pyOr, firstTruthy, List.find?, h1, h2, h3]

/-- Counterexample to C6 as stated: with evidence_phrases present but
    bound to an empty (hence falsy) list and evidence bound to a list, the
    first non-absent value is the empty list, so the claim predicts no
    evidence, but the coercer falls through to the evidence key; moreover
    the kept scalars are trimmed string forms, not the plain string forms. -/
theorem coerce_evidence_c6_cex :
    claimEvC6 [("evidence_phrases", .list []),
        ("evidence", .list [.str " a ", .list [], .int 2])] = [] ∧
    evList [("evidence_phrases", .list []),
        ("evidence", .list [.str " a ", .list [], .int 2])] = ["a", "2"] ∧
    (["a", "2"] : List String) ≠ [] := ⟨rfl, rfl, by decide⟩

/-- C6 as amended: evidence_phrases is computed from the first truthy
    value among the evidence_phrases, evidence and highlights keys; a
    sequence keeps the trimmed string forms of its scalar (string, number
    or boolean) elements and drops the rest; a single string is split on
    pipe or semicolon delimiters with parts trimmed and empty parts
    dropped; any other value yields the empty sequence; the final sequence
    has at most 3 items, and the computation is total so it never raises. -/
theorem coerce_evidence_c6 (d : PyDict) :
    evList d = evSpecAmended d ∧ (evList d).length ≤ 3 := by
  constructor
  · rw [evSpecAmended, evList, evRaw_eq]
  · rw [evList]
    exact List.length_take_le 3 _

/-- C9: alias-key fallback is decided by truthiness rather than key
    presence: a key that is present but bound to a falsy value is skipped
    in favor of the remaining alias chain (or the literal default), shown
    generally for the confidence and label chains and concretely on the
    two mappings of the claim, where confidence 0.0 falls through to score
    0.9 and an empty label string falls through to sentiment positive. -/
theorem coerce_truthiness_c9 :
    (∀ (d : PyDict) (v : PyVal), isTruthy v = false →
      confRaw (("confidence", v) :: d) = pyOr (dictGet d "score") (.float (.fin ⟨0, 1⟩))) ∧
    (∀ (d : PyDict) (v : PyVal), isTruthy v = false →
      labelRaw (("label", v) :: d) = pyOr (dictGet d "sentiment") (dictGet d "prediction")) ∧
    _coerce_result (PyVal.dict [("confidence", .float (.fin ⟨0, 1⟩)),
        ("score", .float (.fin ⟨9, 1⟩)), ("label", .str "positive")]) =
      .ok ⟨"Positive", .fin ⟨90, 2⟩, "", []⟩ ∧
    _coerce_result (PyVal.dict [("label", .str ""), ("sentiment", .str "positive")]) =
      .ok ⟨"Positive", .fin ⟨0, 2⟩, "", []⟩ := by
  refine ⟨fun d v hv => ?_, fun d v hv => ?_, rfl, rfl⟩
  · simp [confRaw, pyOr, dictGet, List.find?, hv]
  · simp [labelRaw, pyOr, dictGet, List.find?, hv]

/-- Witness for C9 at the falsy confidence value 0.0 and the falsy label value "". -/
theorem coerce_truthiness_c9_witness :
    confRaw [("confidence", PyVal.float (.fin ⟨0, 1⟩)), ("score", PyVal.float (.fin ⟨9, 1⟩))] =
      PyVal.float (.fin ⟨9, 1⟩) ∧
    labelRaw [("label", PyVal.str ""), ("sentiment", PyVal.str "positive")] =
      PyVal.str "positive" := by
  constructor
  · have h := coerce_truthiness_c9.1 [("score", PyVal.float (.fin ⟨9, 1⟩))]
      (PyVal.float (.fin ⟨0, 1⟩)) rfl
    rw [h]
    rfl
  · have h := coerce_truthiness_c9.2.1 [("sentiment", PyVal.str "positive")] (PyVal.str "") rfl
    rw [h]
    rfl

theorem msg_ne_diag_missing (raw : String) :
    "Label missing from model output" ≠ diagMsg raw := by
  intro h
  have h2 := congrArg String.length h
  rw [diagMsg, String.length_append] at h2
  have e1 : ("Model did not return parseable JSON. Raw output:\n" : String).length = 49 := rfl
  have e2 : ("Label missing from model output" : String).length = 31 := rfl
  omega

theorem msg_ne_diag_invalid (t raw : String) :
    "Invalid label from model: \x27" ++ t ++ "\x27" ≠ diagMsg raw := by
  intro h
  have h2 := congrArg (fun u => u.data.head?) h
  have e1 : ("Invalid label from model: \x27" ++ t ++ "\x27").data.head? = some 'I' := rfl
  have e2 : (diagMsg raw).data.head? = some 'M' := rfl
  simp only [] at h2
  rw [e1, e2] at h2
  simp at h2

theorem coerce_dict_err (dd : PyDict) (e : PyErr)
    (h : _coerce_result (.dict dd) = .error e) :
    _normalize_label (labelRaw dd) = .error e := by
  rw [_coerce_result] at h
  cases hn : _normalize_label (labelRaw dd) with
  | error e2 => rw [hn] at h; simp only [] at h; rw [← (Except.error.inj h)]
  | ok lab => rw [hn] at h; simp at h

theorem normalize_err_shape (v : PyVal) (e : PyErr) (h : _normalize_label v = .error e) :
    e = .valueError "Label missing from model output" ∨
    ∃ t, e = .valueError ("Invalid label from model: \x27" ++ t ++ "\x27") := by
  by_cases habs : v = PyVal.none
  · subst habs
    rw [_normalize_label] at h
    exact Or.inl (Except.error.inj h).symm
  · rw [normalize_label_ne_none v habs] at h
    simp only [] at h
    split at h
    · cases h
    · split at h
      · cases h
      · split at h
        · cases h
        · exact Or.inr ⟨pyStr v, (Except.error.inj h).symm⟩

theorem analyze_nonempty (model : String → String) (review : Option String) (strict : Bool)
    (hne : pyStrip (reviewArg review) ≠ "") :
    analyze_review model review strict =
      (match _extract_json (model (buildPrompt (pyStrip (reviewArg review)) strict)) with
       | some parsed =>
         if isTruthy parsed then _coerce_result parsed
         else .error (.valueError (diagMsg (model (buildPrompt
           (pyStrip (reviewArg review)) strict))))
       | Option.none => .error (.valueError (diagMsg (model (buildPrompt
           (pyStrip (reviewArg review)) strict))))) := by
  rw [analyze_review]
  simp only []
  rw [if_neg hne]

/-- C3 as amended: for a review that trims non-empty, analyze_review
    raises the diagnostic error carrying the raw model output exactly when
    the sanitize-then-extract pipeline recovers no parsed value or
    recovers a falsy one (0, null, false, or an empty string, list or
    object); whenever a truthy value is recovered the call proceeds to
    coercion with that value; and on a mapping the only failure coercion
    can raise is the label normalizer's error, propagated as-is. -/
theorem analyze_error_c3 (model : String → String) (review : Option String) (strict : Bool)
    (hne : pyStrip (match review with | some s => s | Option.none => "") ≠ "")
    (raw : String)
    (hraw : raw = model (buildPrompt (pyStrip (reviewArg review)) strict)) :
    (analyze_review model review strict = .error (.valueError (diagMsg raw)) ↔
      (_extract_json raw = Option.none ∨
       ∃ p, _extract_json raw = some p ∧ isTruthy p = false)) ∧
    (∀ p, _extract_json raw = some p → isTruthy p = true →
      analyze_review model review strict = _coerce_result p) ∧
    (∀ (dd : PyDict) (e : PyErr), _coerce_result (.dict dd) = .error e →
      _normalize_label (labelRaw dd) = .error e) := by
  subst hraw
  rw [analyze_nonempty model review strict hne]
  set raw := model (buildPrompt (pyStrip (reviewArg review)) strict) with hraw
  refine ⟨⟨fun h => ?_, fun h => ?_⟩, fun p hp ht => ?_, fun dd e h => coerce_dict_err dd e h⟩
  · cases hx : _extract_json raw with
    | none => exact Or.inl rfl
    | some p =>
      rw [hx] at h
      cases ht : isTruthy p with
      | false => exact Or.inr ⟨p, rfl, ht⟩
      | true =>
        exfalso
        simp only [ht, if_true] at h
        cases p with
        | dict dd =>
          have hshape := normalize_err_shape (labelRaw dd) _ (coerce_dict_err dd _ h)
          rcases hshape with hs | ⟨t, hs⟩
          · exact msg_ne_diag_missing raw (PyErr.valueError.inj hs.symm ▸ rfl)
          · exact msg_ne_diag_invalid t raw (PyErr.valueError.inj hs.symm ▸ rfl)
        | none => simp [_coerce_result] at h
        | bool b => simp [_coerce_result] at h
        | int n => simp [_coerce_result] at h
        | float x => simp [_coerce_result] at h
        | str s => simp [_coerce_result] at h
        | list l => simp [_coerce_result] at h
  · rcases h with h | ⟨p, hp, ht⟩
    · rw [h]
    · rw [hp]
      simp [ht]
  · rw [hp]
    simp [ht]

/-- Counterexample to C3 as stated: on raw model output "0" the
    sanitize-then-extract pipeline does recover a parsed json value (the
    number 0), yet analyze_review still raises the diagnostic
    unparsable-response error, because the code gates on the truthiness of
    the parsed value rather than on whether a structure was recovered. -/
theorem analyze_error_c3_cex :
    _extract_json "0" = some (PyVal.int 0) ∧
    analyze_review (fun _ => "0") (some "good movie") true =
      .error (.valueError (diagMsg "0")) := ⟨rfl, rfl⟩

/-- Witness for C3: an unparsable raw output raises the diagnostic error,
    and a parsable truthy mapping goes through coercion to a result. -/
theorem analyze_error_c3_witness :
    analyze_review (fun _ => "nonsense") (some "hi") true =
      .error (.valueError (diagMsg "nonsense")) ∧
    analyze_review (fun _ => "\x7b\"label\": \"pos\"\x7d") (some "hi") true =
      .ok ⟨"Positive", .fin ⟨0, 2⟩, "", []⟩ := by
  constructor
  · exact (analyze_error_c3 (fun _ => "nonsense") (some "hi") true (by decide)
      "nonsense" rfl).1.mpr (Or.inl rfl)
  · have h := (analyze_error_c3 (fun _ => "\x7b\"label\": \"pos\"\x7d") (some "hi") true
      (by decide) "\x7b\"label\": \"pos\"\x7d" rfl).2.1
      (PyVal.dict [("label", PyVal.str "pos")]) rfl rfl
    rw [h]
    rfl

/-- C10: there is raw model output, for example "[1]", that parses to a
    truthy non-mapping; analyze_review then fails with an unhandled
    AttributeError raised by the mapping lookup inside _coerce_result,
    which is neither the diagnostic unparsable-response ValueError nor the
    invalid-label ValueError. -/
theorem analyze_attrerror_c10 :
    _extract_json "[1]" = some (.list [.int 1]) ∧
    isTruthy (.list [.int 1]) = true ∧
    analyze_review (fun _ => "[1]") (some "fine film") true =
      .error (.attributeError "\x27list\x27 object has no attribute \x27get\x27") ∧
    (∀ m1 m2 : String, PyErr.attributeError m1 ≠ PyErr.valueError m2) :=
  ⟨rfl, rfl, rfl, fun _ _ h => PyErr.noConfusion h⟩
